import Mathlib

/-!
Verification development for the PPTX decoding pipeline of a Figma-plugin
presentation importer.  The definitions below are shallow embeddings of the
TypeScript sources under `src/`:

* `src/parser/xml/XMLParser.ts` — generic attributed XML tree and accessors;
* `src/parser/xml/ThemeParser.ts` — theme part parsing with defaults;
* `src/parser/xml/PresentationParser.ts` (SlideParser section) — shape types;
* `src/mapper/ElementMapper.ts` — shape-type lookup table;
* `src/models/ThemeCache.ts` — two cache classes and color modifier math;
* `src/parser/PPTXParser.ts` / `src/shared/validation.ts` (PPTXAdapter
  section) — orchestration, slide file enumeration and per-slide resilience;
* `src/parser/utils.ts`, `src/parser/types.ts` — unit conversions.

JavaScript numbers are modelled as rationals (`ℚ`) and integer-valued
quantities as `ℤ`/`ℕ`; JS objects are modelled by the `JSValue` tree below.
-/

/-! ### Generic JS value tree (output of fast-xml-parser / xmlToJson) -/

/-- Generic JavaScript value as produced by the XML decoders: `vNull` stands
for both `null` and `undefined` where a concrete value is required; object
fields are an ordered association list (JS object keys are unique and keep
insertion order). Numbers are modelled as rationals; NaN is outside the
model. -/
inductive JSValue where
  | vNull : JSValue
  | vBool : Bool → JSValue
  | vNum : ℚ → JSValue
  | vStr : String → JSValue
  | vArr : List JSValue → JSValue
  | vObj : List (String × JSValue) → JSValue

/-- JavaScript truthiness of a value: `null`/`undefined`, `false`, `0` and the
empty string are falsy; arrays and objects (even empty) are truthy. -/
def jsTruthy : JSValue → Bool
  | JSValue.vNull => false
  | JSValue.vBool b => b
  | JSValue.vNum q => decide (q ≠ 0)
  | JSValue.vStr s => decide (s ≠ "")
  | JSValue.vArr _ => true
  | JSValue.vObj _ => true

namespace XMLParser

/-- Embedding of `XMLParser.getChild` (XMLParser.ts:76-80): property lookup on
an object; `none` models JS `undefined` (absent property or non-object
receiver). -/
def getChild : JSValue → String → Option JSValue
  | JSValue.vObj fields, name => fields.lookup name
  | _, _ => none

/-- Embedding of `XMLParser.getChildren` (XMLParser.ts:83-91): the JS code is
`if (!child) return []; if (Array.isArray(child)) return child; return
[child]` — note the truthiness test on the child value. -/
def getChildren (obj : JSValue) (childName : String) : List JSValue :=
  match getChild obj childName with
  | none => []
  | some child =>
    if jsTruthy child then
      match child with
      | JSValue.vArr xs => xs
      | c => [c]
    else []

/-- Embedding of `XMLParser.getAttribute` (XMLParser.ts:57-62): reads the
property named with the configured `@` attribute prefix. -/
def getAttribute (obj : JSValue) (attributeName : String) : Option JSValue :=
  getChild obj ("@" ++ attributeName)

end XMLParser

/-! ### Unit conversion (parser/utils.ts, parser/types.ts) -/

namespace PPTXUnits

/-- Embedding of the constant `EMU_TO_PIXELS = 96 / 914400` (types.ts:213). -/
def EMU_TO_PIXELS : ℚ := 96 / 914400

/-- Embedding of the constant `POINT_TO_PIXELS = 96 / 72` (types.ts:214). -/
def POINT_TO_PIXELS : ℚ := 96 / 72

/-- Embedding of `emuToPixels(emu) = emu * EMU_TO_PIXELS` (utils.ts:11-13). -/
def emuToPixels (emu : ℚ) : ℚ := emu * EMU_TO_PIXELS

/-- Embedding of `pixelsToEmu(pixels) = pixels / EMU_TO_PIXELS` (utils.ts:19-21). -/
def pixelsToEmu (pixels : ℚ) : ℚ := pixels / EMU_TO_PIXELS

end PPTXUnits

/-! ### Percent-like decoders (parser/xml/ThemeParser.ts:208-226)

The three private methods receive the raw child element; their numeric core
takes the `parseInt` result of the element's `val` attribute.  The claims
quantify over integer-encoded values, so the cores take `v : ℤ`. -/

namespace ThemeParser

/-- Numeric core of `ThemeParser.parseTint` (ThemeParser.ts:208-212):
`Math.max(0, Math.min(100, value)) / 100` for the parsed integer `value`. -/
def decodeTintVal (v : ℤ) : ℚ := max 0 (min 100 (v : ℚ)) / 100

/-- Numeric core of `ThemeParser.parseShade` (ThemeParser.ts:215-219):
`Math.max(0, Math.min(100, value)) / 100` for the parsed integer `value`. -/
def decodeShadeVal (v : ℤ) : ℚ := max 0 (min 100 (v : ℚ)) / 100

/-- Numeric core of `ThemeParser.parseAlpha` (ThemeParser.ts:222-226):
`Math.max(0, Math.min(1, value / 100000))` for the parsed integer `value`. -/
def decodeAlphaVal (v : ℤ) : ℚ := max 0 (min 1 ((v : ℚ) / 100000))

/-- Modelled from the spec: decoding of a percent-like field as the
specification describes it — divide the encoded integer by 100000 (so 100000
means 100%) and clamp the result to the interval from 0 to 1.  Written from
the spec's words for comparison with the source-derived decoders above. -/
def specDecodePercent (v : ℤ) : ℚ := max 0 (min 1 ((v : ℚ) / 100000))

/-- Modelled from the amended claim's words: clamp the encoded integer to the
interval from 0 to 100, then divide by 100.  For comparison with
`decodeTintVal` and `decodeShadeVal`. -/
def specDecodeClamp100 (v : ℤ) : ℚ := min 100 (max 0 (v : ℚ)) / 100

end ThemeParser

/-! ### Color modifier application (models/ThemeCache.ts)

`ThemeCache.ts` contains two cache classes.  The second class's
`applyTintShade` (ThemeCache.ts:420-458) normalizes each hex channel to a
rational in the unit interval and transforms it as embedded below; the first
class's `applyTint`/`applyShade` (ThemeCache.ts:177-202) work on 0-255
channels with rounding. -/

namespace ThemeCache

/-- JavaScript `Math.round`: round half away from zero upward, i.e.
`Math.round(x) = floor(x + 1/2)`. -/
def jsRound (q : ℚ) : ℤ := ⌊q + 1 / 2⌋

/-- Per-channel core of `ThemeCache.applyTintShade` (ThemeCache.ts:428-445):
`if (tint > 0) r = r + (1 - r) * tint; if (shade > 0) r = r * (1 - shade);
r = Math.max(0, Math.min(1, r))` for a normalized channel `c`. -/
def applyTintShadeChannel (c tint shade : ℚ) : ℚ :=
  let c1 := if 0 < tint then c + (1 - c) * tint else c
  let c2 := if 0 < shade then c1 * (1 - shade) else c1
  max 0 (min 1 c2)

/-- Per-channel embedding of the first cache class's `applyTint`
(ThemeCache.ts:177-188): `Math.round(rgb.r + (255 - rgb.r) * tint)` on a
0-255 channel. -/
def applyTintByte (c : ℤ) (tint : ℚ) : ℤ := jsRound ((c : ℚ) + (255 - (c : ℚ)) * tint)

/-- Per-channel embedding of the first cache class's `applyShade`
(ThemeCache.ts:191-202): `Math.round(rgb.r * (1 - shade))` on a 0-255
channel. -/
def applyShadeByte (c : ℤ) (shade : ℚ) : ℤ := jsRound ((c : ℚ) * (1 - shade))

end ThemeCache

/-! ### JS helpers shared by the part parsers -/

/-- Truncation of a rational toward zero, as JavaScript `parseInt` does when
given a number. -/
def ratTrunc (q : ℚ) : ℤ := if 0 ≤ q then ⌊q⌋ else ⌈q⌉

/-- JavaScript `parseInt` on a JS value, restricted to the modelled inputs:
numbers truncate toward zero; strings parse when they are canonical integer
literals (`none` models NaN; non-canonical numeric strings are outside the
model, which suffices for the claims, all of which concern integer-encoded
attribute values). -/
def jsParseInt : JSValue → Option ℤ
  | JSValue.vNum q => some (ratTrunc q)
  | JSValue.vStr s => s.toInt?
  | _ => none

/-- The value of `a || b` in JavaScript for an optionally-present `a`:
`a` when present and truthy, otherwise the fallback `b`. -/
def jsOr (a : Option JSValue) (b : JSValue) : JSValue :=
  match a with
  | some v => if jsTruthy v then v else b
  | none => b

/-- Property access followed by a truthiness test, the `if (obj[k]) { ... }`
pattern: `some v` exactly when the field is present and truthy. -/
def getTruthy (o : JSValue) (k : String) : Option JSValue :=
  match XMLParser.getChild o k with
  | some v => if jsTruthy v then some v else none
  | none => none

/-- String rendering of a JS value as used in template literals, restricted to
the modelled inputs (strings and integral numbers). -/
def jsStrOf : JSValue → String
  | JSValue.vStr s => s
  | JSValue.vNum q => toString (ratTrunc q)
  | _ => ""

/-! ### ThemeParser (parser/xml/ThemeParser.ts) -/

namespace ThemeParser

/-- Embedding of the `ColorInfo` model (models/types.ts:793-799): the `type`
field is one of the strings `rgb`, `scheme`, `system`. -/
structure ColorInfo where
  type : String
  value : String
  tint : ℚ
  shade : ℚ
  alpha : ℚ
deriving Repr, DecidableEq

/-- Embedding of the `ColorScheme` model (models/types.ts:810-818); the
metadata timestamps are modelled by the `Date.now()` value `created`. -/
structure ColorScheme where
  id : String
  name : String
  colors : List (String × ColorInfo)
  created : ℤ
deriving Repr, DecidableEq

/-- Embedding of the `FontInfo` model (models/types.ts:802-807). -/
structure FontInfo where
  typeface : String
  panose : String
  pitchFamily : String
  charset : String
deriving Repr, DecidableEq

/-- Script triple of a major/minor font slot (models/types.ts:824-833). -/
structure FontTriple where
  latin : FontInfo
  eastAsian : FontInfo
  complexScript : FontInfo
deriving Repr, DecidableEq

/-- Embedding of the `FontScheme` model (models/types.ts:820-839): the `fonts`
map holds the slots (`majorFont`, `minorFont`) that were present. -/
structure FontScheme where
  id : String
  name : String
  fonts : List (String × FontTriple)
  created : ℤ
deriving Repr, DecidableEq

/-- Embedding of the `Theme` model (models/types.ts:841-852). -/
structure Theme where
  id : String
  name : String
  number : ℕ
  colors : ColorScheme
  fonts : FontScheme
  created : ℤ
deriving Repr, DecidableEq

/-- Embedding of `ThemeParseResult` (ThemeParser.ts:11-18); `parseTime` is
elapsed wall-clock time, modelled as zero. -/
structure ThemeParseResult where
  theme : Theme
  colorScheme : ColorScheme
  fontScheme : FontScheme
  errors : List String
  warnings : List String
  parseTime : ℕ
deriving Repr, DecidableEq

/-- Reads `el['@attributes']?.val` (the attribute container the ThemeParser
expects) and applies `parseInt(... || '0')`: a falsy or absent value falls
back to the string `'0'`, i.e. the integer 0; a present truthy value is
parsed, with non-integer text outside the model. -/
def attrValInt (el : JSValue) : ℤ :=
  match (XMLParser.getChild el "@attributes").bind (fun a => XMLParser.getChild a "val") with
  | some v => if jsTruthy v then (jsParseInt v).getD 0 else 0
  | none => 0

/-- Reads `el['@attributes']?.val || dflt` as a string. -/
def attrValStr (el : JSValue) (dflt : String) : String :=
  match (XMLParser.getChild el "@attributes").bind (fun a => XMLParser.getChild a "val") with
  | some v => if jsTruthy v then jsStrOf v else dflt
  | none => dflt

/-- Embedding of `ThemeParser.parseTint` (ThemeParser.ts:208-212): a falsy or
absent tint element yields 0; otherwise the `val` attribute is parsed and
decoded by `decodeTintVal`. -/
def parseTint (tintElement : Option JSValue) : ℚ :=
  match tintElement with
  | none => 0
  | some el => if jsTruthy el then decodeTintVal (attrValInt el) else 0

/-- Embedding of `ThemeParser.parseShade` (ThemeParser.ts:215-219). -/
def parseShade (shadeElement : Option JSValue) : ℚ :=
  match shadeElement with
  | none => 0
  | some el => if jsTruthy el then decodeShadeVal (attrValInt el) else 0

/-- Embedding of `ThemeParser.parseAlpha` (ThemeParser.ts:222-226): the `val`
attribute falls back to `'100000'` when falsy or absent. -/
def parseAlpha (alphaElement : Option JSValue) : ℚ :=
  match alphaElement with
  | none => 1
  | some el =>
    if jsTruthy el then
      match (XMLParser.getChild el "@attributes").bind (fun a => XMLParser.getChild a "val") with
      | some v => decodeAlphaVal (if jsTruthy v then (jsParseInt v).getD 0 else 100000)
      | none => decodeAlphaVal 100000
    else 1

/-- Embedding of `ThemeParser.parseColorInfo` (ThemeParser.ts:119-162): checks
`a:srgbClr`, `a:schemeClr`, `a:sysClr` in that order (truthiness tests) and
falls back to opaque black. -/
def parseColorInfo (colorElement : JSValue) : ColorInfo :=
  match getTruthy colorElement "a:srgbClr" with
  | some srgb =>
    { type := "rgb", value := attrValStr srgb "000000"
      tint := parseTint (XMLParser.getChild srgb "a:tint")
      shade := parseShade (XMLParser.getChild srgb "a:shade")
      alpha := parseAlpha (XMLParser.getChild srgb "a:alpha") }
  | none =>
  match getTruthy colorElement "a:schemeClr" with
  | some scheme =>
    { type := "scheme", value := attrValStr scheme "dk1"
      tint := parseTint (XMLParser.getChild scheme "a:tint")
      shade := parseShade (XMLParser.getChild scheme "a:shade")
      alpha := parseAlpha (XMLParser.getChild scheme "a:alpha") }
  | none =>
  match getTruthy colorElement "a:sysClr" with
  | some sys =>
    { type := "system", value := attrValStr sys "window"
      tint := parseTint (XMLParser.getChild sys "a:tint")
      shade := parseShade (XMLParser.getChild sys "a:shade")
      alpha := parseAlpha (XMLParser.getChild sys "a:alpha") }
  | none => { type := "rgb", value := "000000", tint := 0, shade := 0, alpha := 1 }

/-- The twelve standard color slots (ThemeParser.ts:95-98). -/
def standardColors : List String :=
  ["dk1", "lt1", "dk2", "lt2", "accent1", "accent2",
   "accent3", "accent4", "accent5", "accent6", "hlink", "folHlink"]

/-- Embedding of `ThemeParser.parseColorScheme` (ThemeParser.ts:91-116): only
the slots whose `a:`-prefixed child is present and truthy are entered into
the colors map. -/
def parseColorScheme (now : ℤ) (clrScheme : JSValue) : ColorScheme :=
  { id := "color-scheme-" ++ toString now
    name := "Default Color Scheme"
    colors := standardColors.filterMap (fun colorKey =>
      match getTruthy clrScheme ("a:" ++ colorKey) with
      | some colorElement => some (colorKey, parseColorInfo colorElement)
      | none => none)
    created := now }

/-- Embedding of `ThemeParser.createDefaultFontInfo` (ThemeParser.ts:303-310). -/
def createDefaultFontInfo : FontInfo :=
  { typeface := "Arial", panose := "020B0604020202020204", pitchFamily := "18", charset := "0" }

/-- Embedding of `ThemeParser.parseFontInfo` (ThemeParser.ts:198-205). -/
def parseFontInfo (fontElement : JSValue) : FontInfo :=
  let attr := fun (k : String) (dflt : String) =>
    match (XMLParser.getChild fontElement "@attributes").bind
        (fun a => XMLParser.getChild a k) with
    | some v => if jsTruthy v then jsStrOf v else dflt
    | none => dflt
  { typeface := attr "typeface" "Arial", panose := attr "panose" ""
    pitchFamily := attr "pitchFamily" "18", charset := attr "charset" "0" }

/-- Embedding of `ThemeParser.parseFontScheme` (ThemeParser.ts:165-195). -/
def parseFontScheme (now : ℤ) (fontScheme : JSValue) : FontScheme :=
  { id := "font-scheme-" ++ toString now
    name := "Default Font Scheme"
    fonts := ["majorFont", "minorFont"].filterMap (fun fontType =>
      match getTruthy fontScheme ("a:" ++ fontType) with
      | some fontElement =>
        let pick := fun (k : String) =>
          match getTruthy fontElement k with
          | some f => parseFontInfo f
          | none => createDefaultFontInfo
        some (fontType,
          { latin := pick "a:latin", eastAsian := pick "a:ea", complexScript := pick "a:cs" })
      | none => none)
    created := now }

/-- Embedding of `ThemeParser.createDefaultColorScheme` (ThemeParser.ts:251-274):
the documented default 12-slot palette. -/
def createDefaultColorScheme : ColorScheme :=
  { id := "default-color-scheme"
    name := "Default Color Scheme"
    colors :=
      [("dk1", { type := "rgb", value := "000000", tint := 0, shade := 0, alpha := 1 }),
       ("lt1", { type := "rgb", value := "FFFFFF", tint := 0, shade := 0, alpha := 1 }),
       ("dk2", { type := "rgb", value := "44546A", tint := 0, shade := 0, alpha := 1 }),
       ("lt2", { type := "rgb", value := "E7E6E6", tint := 0, shade := 0, alpha := 1 }),
       ("accent1", { type := "rgb", value := "5B9BD5", tint := 0, shade := 0, alpha := 1 }),
       ("accent2", { type := "rgb", value := "ED7D31", tint := 0, shade := 0, alpha := 1 }),
       ("accent3", { type := "rgb", value := "A5A5A5", tint := 0, shade := 0, alpha := 1 }),
       ("accent4", { type := "rgb", value := "FFC000", tint := 0, shade := 0, alpha := 1 }),
       ("accent5", { type := "rgb", value := "4472C4", tint := 0, shade := 0, alpha := 1 }),
       ("accent6", { type := "rgb", value := "70AD47", tint := 0, shade := 0, alpha := 1 }),
       ("hlink", { type := "rgb", value := "0563C1", tint := 0, shade := 0, alpha := 1 }),
       ("folHlink", { type := "rgb", value := "954F72", tint := 0, shade := 0, alpha := 1 })]
    created := 0 }

/-- Embedding of `ThemeParser.createDefaultFontScheme` (ThemeParser.ts:277-300). -/
def createDefaultFontScheme : FontScheme :=
  { id := "default-font-scheme"
    name := "Default Font Scheme"
    fonts :=
      [("majorFont", { latin := createDefaultFontInfo, eastAsian := createDefaultFontInfo,
                       complexScript := createDefaultFontInfo }),
       ("minorFont", { latin := createDefaultFontInfo, eastAsian := createDefaultFontInfo,
                       complexScript := createDefaultFontInfo })]
    created := 0 }

/-- Embedding of `ThemeParser.createDefaultTheme` (ThemeParser.ts:235-248). -/
def createDefaultTheme (themeNumber : ℕ) : Theme :=
  { id := "theme-" ++ toString themeNumber
    name := "Theme " ++ toString themeNumber
    number := themeNumber
    colors := createDefaultColorScheme
    fonts := createDefaultFontScheme
    created := 0 }

/-- Embedding of `ThemeParser.extractThemeName` (ThemeParser.ts:229-232). -/
def extractThemeName (theme : JSValue) (themeNumber : ℕ) : String :=
  match (XMLParser.getChild theme "@attributes").bind
      (fun a => XMLParser.getChild a "name") with
  | some v => if jsTruthy v then jsStrOf v else "Theme " ++ toString themeNumber
  | none => "Theme " ++ toString themeNumber

/-- Embedding of `XMLParser.parse` (XMLParser.ts:41-48) as seen by its
callers: the input is the fast-xml-parser outcome; a parser exception is
re-thrown with the message prefixed by `Failed to parse XML: `. -/
def xmlParse (raw : Except String JSValue) : Except String JSValue :=
  match raw with
  | Except.error msg => Except.error ("Failed to parse XML: " ++ msg)
  | Except.ok v => Except.ok v

/-- Embedding of `ThemeParser.parseTheme` (ThemeParser.ts:29-88).  The input
is the XML decoding outcome of the theme part (`Except.error` models
malformed XML).  Every exception inside the `try` block — a parse failure, or
the explicit `Invalid theme XML structure` throw when `xmlData` or
`xmlData['a:theme']` is falsy — is caught and turned into the default theme
with the message pushed onto `errors` (never `warnings`).  `now` models
`Date.now()`. -/
def parseTheme (now : ℤ) (raw : Except String JSValue) (themeNumber : ℕ) : ThemeParseResult :=
  let failWith := fun (msg : String) =>
    { theme := createDefaultTheme themeNumber
      colorScheme := createDefaultColorScheme
      fontScheme := createDefaultFontScheme
      errors := ["Theme parsing error: " ++ msg]
      warnings := []
      parseTime := 0 : ThemeParseResult }
  match xmlParse raw with
  | Except.error msg => failWith msg
  | Except.ok xmlData =>
    if jsTruthy xmlData then
      match getTruthy xmlData "a:theme" with
      | none => failWith "Invalid theme XML structure"
      | some theme =>
        let themeElements := jsOr (XMLParser.getChild theme "a:themeElements") (JSValue.vObj [])
        let colorScheme :=
          parseColorScheme now (jsOr (XMLParser.getChild themeElements "a:clrScheme") (JSValue.vObj []))
        let fontScheme :=
          parseFontScheme now (jsOr (XMLParser.getChild themeElements "a:fontScheme") (JSValue.vObj []))
        { theme :=
            { id := "theme-" ++ toString themeNumber
              name := extractThemeName theme themeNumber
              number := themeNumber
              colors := colorScheme
              fonts := fontScheme
              created := now }
          colorScheme := colorScheme
          fontScheme := fontScheme
          errors := []
          warnings := []
          parseTime := 0 }
    else failWith "Invalid theme XML structure"

end ThemeParser

/-! ### Slide file enumeration and ordering (PPTXParser.ts:271-277,
shared/validation.ts pptx-adapter section:672-682) -/

namespace SlideFiles

/-- Leading decimal digit run of a character list. -/
def takeDigits : List Char → List Char
  | [] => []
  | c :: rest => if c.isDigit then c :: takeDigits rest else []

/-- Numeric value of a digit run. -/
def digitsToNat (ds : List Char) : ℕ :=
  ds.foldl (fun acc c => 10 * acc + (c.toNat - 48)) 0

/-- First match of the regular expression `slide(\d+)` over a character list:
scan for the literal `slide` followed by at least one digit and return the
value of the digit run; on a bare `slide` with no digit the scan resumes one
character further, as a regex engine does. -/
def findSlideNum : List Char → Option ℕ
  | 's' :: 'l' :: 'i' :: 'd' :: 'e' :: rest =>
    let ds := takeDigits rest
    if ds.isEmpty then findSlideNum ('l' :: 'i' :: 'd' :: 'e' :: rest)
    else some (digitsToNat ds)
  | _ :: rest => findSlideNum rest
  | [] => none

/-- Numeric suffix used by the adapter's sort comparator:
`parseInt(name.match(/slide(\d+)/)?.[1] || '0')`. -/
def slideNum (name : String) : ℕ := (findSlideNum name.data).getD 0

/-- Character-sequence test that `p` is a prefix of `s`, the behavior of
`String.prototype.startsWith`. -/
def charPrefixOf : List Char → List Char → Bool
  | [], _ => true
  | _ :: _, [] => false
  | p :: ps, c :: cs => p == c && charPrefixOf ps cs

/-- Character-sequence test that `p` is a suffix of `s`, the behavior of
`String.prototype.endsWith`. -/
def charSuffixOf (p s : List Char) : Bool := charPrefixOf p.reverse s.reverse

/-- Filter predicate shared by both slide file enumerations:
`file.name.startsWith('ppt/slides/slide') && file.name.endsWith('.xml')`,
modelled on the character sequence of the name. -/
def isSlideFile (name : String) : Bool :=
  charPrefixOf "ppt/slides/slide".data name.data && charSuffixOf ".xml".data name.data

/-- Embedding of `PPTXParser.getSlideFiles` (PPTXParser.ts:271-277): filters
the ZIP entry names in enumeration order and applies no sort. -/
def pptxGetSlideFiles (files : List String) : List String :=
  files.filter isSlideFile

/-- Comparator relation of the adapter's sort: ascending numeric suffix. -/
def slideLE (a b : String) : Prop := slideNum a ≤ slideNum b

instance : DecidableRel slideLE := fun _ _ => Nat.decLe _ _

instance : IsTotal String slideLE := ⟨fun _ _ => Nat.le_total _ _⟩

instance : IsTrans String slideLE := ⟨fun _ _ _ h h' => Nat.le_trans h h'⟩

/-- Embedding of `PPTXAdapter.getSlideFiles` (validation.ts pptx-adapter
section:672-682): the same filter followed by a stable sort on the numeric
suffix extracted by `slide(\d+)`. -/
def adapterGetSlideFiles (files : List String) : List String :=
  List.insertionSort slideLE (files.filter isSlideFile)

end SlideFiles

/-! ### Per-slide resilience (PPTXParser.ts:156-189, 303-322)

A deck is modelled by the outcome of `SlideParser.parse` on each slide file,
in the order produced by `getSlideFiles`: `Except.error m` models a slide
part whose XML parse (or structural validation) throws with message `m`. -/

namespace PPTXParser

/-- Slide record assembled by `PPTXParser.parseSlide` (PPTXParser.ts:310-317);
element, background and layout payloads are irrelevant to the orchestration
claims and are carried opaquely as strings. -/
structure Slide where
  id : String
  name : String
  number : ℕ
deriving Repr, DecidableEq

/-- Embedding of `PPTXParser.parseSlide` (PPTXParser.ts:303-322): a parser
exception is re-thrown as `Failed to parse slide N: msg`. -/
def parseSlide (outcome : Except String Slide) (slideNumber : ℕ) : Except String Slide :=
  match outcome with
  | Except.ok s => Except.ok s
  | Except.error m =>
    Except.error ("Failed to parse slide " ++ toString slideNumber ++ ": " ++ m)

/-- Warning string pushed by the catch block of `PPTXParser.parseSlides`
(PPTXParser.ts:176-180) when slide number `n` fails with message `m` thrown
by the slide parse inside `parseSlide`. -/
def slideWarning (n : ℕ) (m : String) : String :=
  "Ошибка парсинга слайда " ++ toString n ++ ": " ++
    ("Failed to parse slide " ++ toString n ++ ": " ++ m)

/-- Loop body of `PPTXParser.parseSlides` (PPTXParser.ts:160-184): the i-th
slide file (0-based) is parsed as slide number i+1; a per-slide exception is
demoted to one warning (its message prefixed with the slide number) and the
loop continues. -/
def parseSlidesGo : List (Except String Slide) → ℕ → List Slide × List String
  | [], _ => ([], [])
  | f :: rest, i =>
    let slideNumber := i + 1
    let tail := parseSlidesGo rest (i + 1)
    match parseSlide f slideNumber with
    | Except.ok slide => (slide :: tail.1, tail.2)
    | Except.error m =>
      (tail.1, ("Ошибка парсинга слайда " ++ toString slideNumber ++ ": " ++ m) :: tail.2)

/-- Embedding of `PPTXParser.parseSlides` (PPTXParser.ts:156-189). -/
def parseSlides (files : List (Except String Slide)) : List Slide × List String :=
  parseSlidesGo files 0

/-- Decode result shape of `PPTXParser.parse` (PPTXParser.ts:78-104)
restricted to the fields the orchestration claims mention. -/
structure ParseResult where
  success : Bool
  slides : List Slide
  errors : List String
  warnings : List String
deriving Repr, DecidableEq

/-- Embedding of the orchestration of `PPTXParser.parse` (PPTXParser.ts:33-105)
over a deck whose presentation part has outcome `pres` and whose slide parts
have the given outcomes; master/theme/media parts are taken as absent, so
they add no warnings.  A presentation failure is fatal (success false); slide
failures are per-part warnings. -/
def parse (pres : Except String Unit) (slideFiles : List (Except String Slide)) :
    ParseResult :=
  match pres with
  | Except.error m =>
    { success := false, slides := []
      errors := ["Failed to parse presentation.xml: " ++ m], warnings := [] }
  | Except.ok _ =>
    let r := parseSlides slideFiles
    { success := true, slides := r.1, errors := [], warnings := r.2 }

end PPTXParser

/-! ### Shape preset lookup (PresentationParser.ts SlideParser
section:584-605, mapper/ElementMapper.ts:380-390) -/

namespace ShapeTypes

/-- Switch body of `SlideParser.getShapeType` (PresentationParser.ts SlideParser
section:589-604): six known presets, everything else defaults to
`rectangle`. -/
def slidePrstSwitch (prst : String) : String :=
  if prst = "rect" then "rectangle"
  else if prst = "ellipse" then "ellipse"
  else if prst = "triangle" then "triangle"
  else if prst = "line" then "line"
  else if prst = "arrow" then "arrow"
  else if prst = "star" then "star"
  else "rectangle"

/-- Embedding of `SlideParser.getShapeType` (PresentationParser.ts SlideParser
section:584-605): a falsy or absent `prstGeom` node, or a missing or
non-string `prst` attribute, yields `rectangle`. -/
def getShapeType (prstGeom : Option JSValue) : String :=
  match prstGeom with
  | none => "rectangle"
  | some g =>
    if jsTruthy g then
      match XMLParser.getAttribute g "prst" with
      | some (JSValue.vStr s) => slidePrstSwitch s
      | _ => "rectangle"
    else "rectangle"

/-- The fixed lookup table of `ElementMapper.mapShapeType`
(ElementMapper.ts:381-388). -/
def shapeMap : List (String × String) :=
  [("rect", "RECTANGLE"), ("ellipse", "ELLIPSE"), ("triangle", "TRIANGLE"),
   ("line", "LINE"), ("arrow", "ARROW"), ("star", "STAR")]

/-- Embedding of `ElementMapper.mapShapeType` (ElementMapper.ts:380-390):
`shapeMap[type] || 'RECTANGLE'` (all table values are truthy strings). -/
def mapShapeType (t : String) : String := (shapeMap.lookup t).getD "RECTANGLE"

end ShapeTypes

/-! ### Theme cache bound (models/ThemeCache.ts, first cache class:18-269)

The cache is a JS `Map` from theme id to an entry holding usage statistics;
`Map` iteration follows insertion order and `set` on an existing key updates
in place.  `Date.now()` is threaded as an explicit clock value carried by
each operation. -/

namespace ThemeCache

/-- Usage statistics of a cache entry (ThemeCache.ts:10-16); the cached theme
payload is irrelevant to the size bound and omitted. -/
structure CacheEntry where
  lastAccessed : ℤ
  accessCount : ℕ
deriving Repr, DecidableEq

/-- Cache state: the `Map` contents in insertion order plus `maxSize`
(ThemeCache.ts:18-25). -/
structure CacheState where
  entries : List (String × CacheEntry)
  maxSize : ℕ
deriving Repr, DecidableEq

/-- JS `Map.set`: update in place when the key exists, else append. -/
def mapSet : List (String × CacheEntry) → String → CacheEntry → List (String × CacheEntry)
  | [], k, v => [(k, v)]
  | (k', v') :: rest, k, v =>
    if k' = k then (k, v) :: rest else (k', v') :: mapSet rest k v

/-- JS `Map.delete`: remove the entry with the given key, if present. -/
def mapDelete : List (String × CacheEntry) → String → List (String × CacheEntry)
  | [], _ => []
  | (k', v') :: rest, k =>
    if k' = k then rest else (k', v') :: mapDelete rest k

/-- Eviction score of `ThemeCache.evictLeastUsed` (ThemeCache.ts:239):
`entry.accessCount * (Date.now() - entry.lastAccessed)`. -/
def score (now : ℤ) (e : CacheEntry) : ℤ := e.accessCount * (now - e.lastAccessed)

/-- Scan of `evictLeastUsed` (ThemeCache.ts:237-245): iterate in insertion
order keeping the first entry of strictly minimal score; the accumulator
`none` models the initial `minScore = Infinity`. -/
def findLeastUsedGo (now : ℤ) :
    List (String × CacheEntry) → Option (String × ℤ) → Option String
  | [], acc => acc.map Prod.fst
  | (k, e) :: rest, acc =>
    let s := score now e
    match acc with
    | none => findLeastUsedGo now rest (some (k, s))
    | some (k0, m) =>
      if s < m then findLeastUsedGo now rest (some (k, s))
      else findLeastUsedGo now rest (some (k0, m))

/-- The key chosen by the eviction scan. -/
def findLeastUsed (now : ℤ) (l : List (String × CacheEntry)) : Option String :=
  findLeastUsedGo now l none

/-- Embedding of `ThemeCache.evictLeastUsed` (ThemeCache.ts:233-250): the
chosen key is deleted only when it is truthy — `if (leastUsed)` — so the
empty-string key is never deleted. -/
def evictLeastUsed (now : ℤ) (st : CacheState) : CacheState :=
  match findLeastUsed now st.entries with
  | some k => if k = "" then st else { st with entries := mapDelete st.entries k }
  | none => st

/-- Embedding of `ThemeCache.set` (ThemeCache.ts:28-43): evict once when the
cache already holds at least `maxSize` entries, then insert the fresh entry
with `lastAccessed = Date.now()` and `accessCount = 0`. -/
def cacheSet (now : ℤ) (st : CacheState) (themeId : String) : CacheState :=
  let st' := if st.maxSize ≤ st.entries.length then evictLeastUsed now st else st
  { st' with entries := mapSet st'.entries themeId ⟨now, 0⟩ }

/-- Embedding of `ThemeCache.get` (ThemeCache.ts:46-57): on a hit the entry's
statistics are updated in place. -/
def cacheGet (now : ℤ) (st : CacheState) (themeId : String) : CacheState :=
  { st with entries := st.entries.map (fun kv =>
      if kv.1 = themeId then (kv.1, ⟨now, kv.2.accessCount + 1⟩) else kv) }

/-- Embedding of `ThemeCache.delete` (ThemeCache.ts:65-67). -/
def cacheDelete (st : CacheState) (themeId : String) : CacheState :=
  { st with entries := mapDelete st.entries themeId }

/-- Embedding of `ThemeCache.clear` (ThemeCache.ts:70-72). -/
def cacheClear (st : CacheState) : CacheState := { st with entries := [] }

/-- One cache operation with its `Date.now()` value where the code reads the
clock. -/
inductive CacheOp where
  | set (now : ℤ) (themeId : String)
  | get (now : ℤ) (themeId : String)
  | del (themeId : String)
  | clear
deriving Repr, DecidableEq

/-- Interpretation of one operation. -/
def runOp (st : CacheState) : CacheOp → CacheState
  | CacheOp.set now id => cacheSet now st id
  | CacheOp.get now id => cacheGet now st id
  | CacheOp.del id => cacheDelete st id
  | CacheOp.clear => cacheClear st

/-- Run a sequence of operations from the empty cache with the given
`maxSize` (the constructor default is 10). -/
def runOps (maxSize : ℕ) (ops : List CacheOp) : CacheState :=
  ops.foldl runOp { entries := [], maxSize := maxSize }

end ThemeCache

/-! ### Helper lemmas -/

/-- Clamping to an interval commutes between the two writing orders. -/
theorem clamp_comm (a b x : ℚ) (h : a ≤ b) : max a (min b x) = min b (max a x) := by
  rw [max_min_distrib_left, max_eq_right h]

/-! ### C7 — unit round-trip -/

/-- C7: for every emu ≥ 0, composing `pixelsToEmu` after `emuToPixels` yields
a value within 1 unit of the input; in exact rational arithmetic the
composition is the identity, since `emuToPixels` multiplies by 96/914400 and
`pixelsToEmu` divides by the same nonzero constant. -/
theorem emu_pixel_roundtrip (emu : ℚ) (h : 0 ≤ emu) :
    |PPTXUnits.pixelsToEmu (PPTXUnits.emuToPixels emu) - emu| ≤ 1 := by
  have heq : PPTXUnits.pixelsToEmu (PPTXUnits.emuToPixels emu) = emu := by
    unfold PPTXUnits.pixelsToEmu PPTXUnits.emuToPixels PPTXUnits.EMU_TO_PIXELS
    field_simp
  rw [heq, sub_self, abs_zero]
  norm_num

/-- Witness for C7 at emu = 914400 (one inch). -/
theorem emu_pixel_roundtrip_witness :
    |PPTXUnits.pixelsToEmu (PPTXUnits.emuToPixels 914400) - 914400| ≤ 1 :=
  emu_pixel_roundtrip 914400 (by norm_num)

/-! ### C3 — percent-like decoders -/

/-- C3 counterexample: the claim says tint is decoded by dividing by 100000
(so 50000 means 50%), but `parseTint` clamps the encoded value to the range
0..100 and divides by 100, so the encoded value 50000 decodes to 1, not 1/2. -/
theorem percent_decoder_counterexample :
    ThemeParser.decodeTintVal 50000 = 1 ∧
    ThemeParser.specDecodePercent 50000 = 1 / 2 ∧
    ThemeParser.decodeTintVal 50000 ≠ ThemeParser.specDecodePercent 50000 := by
  refine ⟨?_, ?_, ?_⟩ <;>
    norm_num [ThemeParser.decodeTintVal, ThemeParser.specDecodePercent]

/-- C3 amended: only `parseAlpha` decodes by dividing by 100000 and clamping
to the unit interval; `parseTint` and `parseShade` instead clamp the encoded
integer to the range 0..100 and divide by 100. -/
theorem percent_decoders_amended (v : ℤ) :
    ThemeParser.decodeAlphaVal v = min 1 (max 0 ((v : ℚ) / 100000)) ∧
    ThemeParser.decodeTintVal v = ThemeParser.specDecodeClamp100 v ∧
    ThemeParser.decodeShadeVal v = ThemeParser.specDecodeClamp100 v := by
  refine ⟨?_, ?_, ?_⟩
  · unfold ThemeParser.decodeAlphaVal
    exact clamp_comm 0 1 _ (by norm_num)
  · unfold ThemeParser.decodeTintVal ThemeParser.specDecodeClamp100
    rw [clamp_comm 0 100 _ (by norm_num)]
  · unfold ThemeParser.decodeShadeVal ThemeParser.specDecodeClamp100
    rw [clamp_comm 0 100 _ (by norm_num)]

/-! ### C5 — tint/shade application formula -/

/-- C5: for base channels and tint/shade fractions in the unit interval,
`applyTintShade` computes each channel by the linear formulas
`base + (1 - base) * tint` (tint applied first) and `base * (1 - shade)`;
the first cache class's byte-level `applyTint`/`applyShade` compute the same
formulas on the 0-255 scale up to `Math.round`. -/
theorem apply_tint_shade_formula (c t s : ℚ) (hc0 : 0 ≤ c) (hc1 : c ≤ 1)
    (ht0 : 0 ≤ t) (ht1 : t ≤ 1) (hs0 : 0 ≤ s) (hs1 : s ≤ 1) :
    ThemeCache.applyTintShadeChannel c t s = (c + (1 - c) * t) * (1 - s) ∧
    (∀ b : ℤ, ThemeCache.applyTintByte b t =
      ThemeCache.jsRound (255 * ((b : ℚ) / 255 + (1 - (b : ℚ) / 255) * t))) ∧
    (∀ b : ℤ, ThemeCache.applyShadeByte b s =
      ThemeCache.jsRound (255 * (((b : ℚ) / 255) * (1 - s)))) := by
  refine ⟨?_, ?_, ?_⟩
  · have h1 : (if 0 < t then c + (1 - c) * t else c) = c + (1 - c) * t := by
      rcases lt_or_eq_of_le ht0 with h | h
      · rw [if_pos h]
      · rw [if_neg (by rw [← h]; exact lt_irrefl 0), ← h]; ring
    have h2 : (if 0 < s then (c + (1 - c) * t) * (1 - s) else c + (1 - c) * t) =
        (c + (1 - c) * t) * (1 - s) := by
      rcases lt_or_eq_of_le hs0 with h | h
      · rw [if_pos h]
      · rw [if_neg (by rw [← h]; exact lt_irrefl 0), ← h]; ring
    show max 0 (min 1 (if 0 < s then (if 0 < t then c + (1 - c) * t else c) * (1 - s)
        else (if 0 < t then c + (1 - c) * t else c))) = (c + (1 - c) * t) * (1 - s)
    rw [h1, h2]
    have h1s : (0:ℚ) ≤ 1 - s := by linarith
    have ha : 0 ≤ c + (1 - c) * t := by nlinarith [mul_nonneg (by linarith : (0:ℚ) ≤ 1 - c) ht0]
    have hb : c + (1 - c) * t ≤ 1 := by
      nlinarith [mul_nonneg (by linarith : (0:ℚ) ≤ 1 - c) (by linarith : (0:ℚ) ≤ 1 - t)]
    have hv0 : 0 ≤ (c + (1 - c) * t) * (1 - s) := mul_nonneg ha h1s
    have hv1 : (c + (1 - c) * t) * (1 - s) ≤ 1 := by
      nlinarith [mul_le_mul_of_nonneg_right hb h1s]
    rw [min_eq_right hv1, max_eq_right hv0]
  · intro b
    unfold ThemeCache.applyTintByte
    congr 1
    field_simp
  · intro b
    unfold ThemeCache.applyShadeByte
    congr 1
    field_simp

/-- Witness for C5 at base = 1/2, tint = 1/2, shade = 1/2. -/
theorem apply_tint_shade_formula_witness :
    ThemeCache.applyTintShadeChannel (1 / 2) (1 / 2) (1 / 2) =
      (1 / 2 + (1 - 1 / 2) * (1 / 2)) * (1 - 1 / 2) :=
  (apply_tint_shade_formula (1 / 2) (1 / 2) (1 / 2) (by norm_num) (by norm_num)
    (by norm_num) (by norm_num) (by norm_num) (by norm_num)).1

/-! ### C6 — clamp invariant -/

/-- C6: for every integer-encoded input, including negative and arbitrarily
large values, the decoded tint, shade and alpha fractions lie in the unit
interval, and for arbitrary (even out-of-range) tint and shade fractions the
channel produced by `applyTintShade` is clamped into the unit interval. -/
theorem color_clamp_invariant (v : ℤ) (c t s : ℚ) :
    (0 ≤ ThemeParser.decodeTintVal v ∧ ThemeParser.decodeTintVal v ≤ 1) ∧
    (0 ≤ ThemeParser.decodeShadeVal v ∧ ThemeParser.decodeShadeVal v ≤ 1) ∧
    (0 ≤ ThemeParser.decodeAlphaVal v ∧ ThemeParser.decodeAlphaVal v ≤ 1) ∧
    (0 ≤ ThemeCache.applyTintShadeChannel c t s ∧
      ThemeCache.applyTintShadeChannel c t s ≤ 1) := by
  refine ⟨⟨?_, ?_⟩, ⟨?_, ?_⟩, ⟨?_, ?_⟩, ⟨?_, ?_⟩⟩
  · exact div_nonneg (le_max_left 0 _) (by norm_num)
  · unfold ThemeParser.decodeTintVal
    rw [div_le_one (by norm_num : (0:ℚ) < 100)]
    exact max_le (by norm_num) (min_le_left _ _)
  · exact div_nonneg (le_max_left 0 _) (by norm_num)
  · unfold ThemeParser.decodeShadeVal
    rw [div_le_one (by norm_num : (0:ℚ) < 100)]
    exact max_le (by norm_num) (min_le_left _ _)
  · exact le_max_left 0 _
  · exact max_le (by norm_num) (min_le_left _ _)
  · exact le_max_left 0 _
  · exact max_le (by norm_num) (min_le_left _ _)

/-! ### C8 — shape preset default -/

/-- C8: a missing preset-geometry node, a missing `prst` attribute, or a
preset name outside the lookup tables all map to the rectangle shape type,
never an error; and every known preset name maps through the table to its
listed shape type. -/
theorem shape_type_default (p : String) (g : JSValue)
    (hp : p ∉ ["rect", "ellipse", "triangle", "line", "arrow", "star"])
    (hg : XMLParser.getAttribute g "prst" = none) :
    ShapeTypes.slidePrstSwitch p = "rectangle" ∧
    ShapeTypes.mapShapeType p = "RECTANGLE" ∧
    ShapeTypes.getShapeType none = "rectangle" ∧
    ShapeTypes.getShapeType (some g) = "rectangle" ∧
    (∀ kv ∈ ShapeTypes.shapeMap, ShapeTypes.mapShapeType kv.1 = kv.2) := by
  simp only [List.mem_cons, List.not_mem_nil, or_false, not_or] at hp
  obtain ⟨h1, h2, h3, h4, h5, h6⟩ := hp
  refine ⟨?_, ?_, rfl, ?_, ?_⟩
  · simp [ShapeTypes.slidePrstSwitch, h1, h2, h3, h4, h5, h6]
  · have b1 : (p == "rect") = false := beq_eq_false_iff_ne.mpr h1
    have b2 : (p == "ellipse") = false := beq_eq_false_iff_ne.mpr h2
    have b3 : (p == "triangle") = false := beq_eq_false_iff_ne.mpr h3
    have b4 : (p == "line") = false := beq_eq_false_iff_ne.mpr h4
    have b5 : (p == "arrow") = false := beq_eq_false_iff_ne.mpr h5
    have b6 : (p == "star") = false := beq_eq_false_iff_ne.mpr h6
    simp [ShapeTypes.mapShapeType, ShapeTypes.shapeMap, List.lookup, b1, b2, b3, b4, b5, b6]
  · unfold ShapeTypes.getShapeType
    cases hj : jsTruthy g with
    | false => simp [hj]
    | true => simp [hj, hg]
  · intro kv hkv
    fin_cases hkv <;> rfl

/-- Witness for C8 at the unknown preset name "roundRect" and a node with no
attributes. -/
theorem shape_type_default_witness :
    ShapeTypes.slidePrstSwitch "roundRect" = "rectangle" ∧
    ShapeTypes.mapShapeType "roundRect" = "RECTANGLE" ∧
    ShapeTypes.getShapeType none = "rectangle" ∧
    ShapeTypes.getShapeType (some (JSValue.vObj [])) = "rectangle" ∧
    (∀ kv ∈ ShapeTypes.shapeMap, ShapeTypes.mapShapeType kv.1 = kv.2) :=
  shape_type_default "roundRect" (JSValue.vObj []) (by decide) rfl

/-! ### C9 — getChildren normalization -/

/-- C9 counterexample: a present, non-repeated child whose parsed value is
the number 0 (as fast-xml-parser produces for a text node `0` with
`parseTagValue: true`) is falsy, so `getChildren` returns the empty array
instead of the one-element array the claim requires. -/
theorem getChildren_counterexample :
    XMLParser.getChild (JSValue.vObj [("a:t", JSValue.vNum 0)]) "a:t" =
      some (JSValue.vNum 0) ∧
    XMLParser.getChildren (JSValue.vObj [("a:t", JSValue.vNum 0)]) "a:t" = [] ∧
    ([] : List JSValue) ≠ [JSValue.vNum 0] := by
  refine ⟨rfl, rfl, ?_⟩
  intro h
  exact List.noConfusion h

/-- C9 amended: `getChildren` always returns an array — the empty array when
the child is absent or its value is falsy (0, empty string, false, null), the
array itself when the child repeats, and a one-element wrapper for a single
truthy non-array child; consequently a single truthy child and the same
child wrapped in a one-element list are indistinguishable to callers. -/
theorem getChildren_amended (o : JSValue) (n : String) :
    (XMLParser.getChild o n = none → XMLParser.getChildren o n = []) ∧
    (∀ c, XMLParser.getChild o n = some c → jsTruthy c = false →
      XMLParser.getChildren o n = []) ∧
    (∀ xs, XMLParser.getChild o n = some (JSValue.vArr xs) →
      XMLParser.getChildren o n = xs) ∧
    (∀ c, XMLParser.getChild o n = some c → jsTruthy c = true →
      (∀ xs, c ≠ JSValue.vArr xs) → XMLParser.getChildren o n = [c]) ∧
    (∀ c, jsTruthy c = true → (∀ xs, c ≠ JSValue.vArr xs) →
      XMLParser.getChildren (JSValue.vObj [(n, c)]) n =
        XMLParser.getChildren (JSValue.vObj [(n, JSValue.vArr [c])]) n) := by
  refine ⟨?_, ?_, ?_, ?_, ?_⟩
  · intro h
    unfold XMLParser.getChildren
    rw [h]
  · intro c h hf
    unfold XMLParser.getChildren
    rw [h]
    simp [hf]
  · intro xs h
    unfold XMLParser.getChildren
    rw [h]
    simp [jsTruthy]
  · intro c h ht hne
    unfold XMLParser.getChildren
    rw [h]
    simp only [ht, if_true]
  · intro c ht hne
    have hc1 : XMLParser.getChild (JSValue.vObj [(n, c)]) n = some c := by
      simp [XMLParser.getChild, List.lookup]
    have hc2 : XMLParser.getChild (JSValue.vObj [(n, JSValue.vArr [c])]) n =
        some (JSValue.vArr [c]) := by
      simp [XMLParser.getChild, List.lookup]
    have harr : jsTruthy (JSValue.vArr [c]) = true := rfl
    unfold XMLParser.getChildren
    rw [hc1, hc2]
    simp only [ht, harr, if_true]

/-- Witness for C9's amended claim on a concrete object holding a repeated
child list and a truthy single child. -/
theorem getChildren_amended_witness :
    XMLParser.getChildren (JSValue.vObj [("a:p", JSValue.vStr "x")]) "a:p" =
      [JSValue.vStr "x"] ∧
    XMLParser.getChildren (JSValue.vObj [("a:p", JSValue.vArr [JSValue.vStr "x"])]) "a:p" =
      [JSValue.vStr "x"] := by
  have h := getChildren_amended (JSValue.vObj [("a:p", JSValue.vStr "x")]) "a:p"
  refine ⟨h.2.2.2.1 (JSValue.vStr "x") rfl rfl (fun xs hx => JSValue.noConfusion hx), ?_⟩
  have h2 := getChildren_amended (JSValue.vObj [("a:p", JSValue.vArr [JSValue.vStr "x"])]) "a:p"
  exact h2.2.2.1 [JSValue.vStr "x"] rfl

/-! ### C1 — per-slide resilience -/

/-- When every slide file parses, the loop emits no warning and one slide per
file. -/
theorem parseSlidesGo_allOk (l : List (Except String PPTXParser.Slide)) (i : ℕ)
    (h : ∀ x ∈ l, x.isOk = true) :
    (PPTXParser.parseSlidesGo l i).2 = [] ∧
      (PPTXParser.parseSlidesGo l i).1.length = l.length := by
  induction l generalizing i with
  | nil => exact ⟨rfl, rfl⟩
  | cons f rest ih =>
    cases f with
    | ok s =>
      have hrest := ih (i + 1) (fun x hx => h x (List.mem_cons_of_mem _ hx))
      simp [PPTXParser.parseSlidesGo, PPTXParser.parseSlide, hrest.1, hrest.2]
    | error m =>
      have := h (Except.error m) (List.mem_cons_self _ _)
      simp [Except.isOk, Except.toBool] at this

/-- With exactly one failing slide file, the loop keeps every other slide and
emits exactly the one warning that names the failing slide's 1-based
position. -/
theorem parseSlidesGo_oneBad (post : List (Except String PPTXParser.Slide))
    (m : String) (hpost : ∀ x ∈ post, x.isOk = true) :
    ∀ (pre : List (Except String PPTXParser.Slide)) (i : ℕ),
    (∀ x ∈ pre, x.isOk = true) →
    (PPTXParser.parseSlidesGo (pre ++ Except.error m :: post) i).2 =
      [PPTXParser.slideWarning (i + pre.length + 1) m] ∧
    (PPTXParser.parseSlidesGo (pre ++ Except.error m :: post) i).1.length =
      pre.length + post.length := by
  intro pre
  induction pre with
  | nil =>
    intro i _
    have hrest := parseSlidesGo_allOk post (i + 1) hpost
    simp [PPTXParser.parseSlidesGo, PPTXParser.parseSlide, PPTXParser.slideWarning,
      hrest.1, hrest.2]
  | cons f rest ih =>
    intro i hpre
    cases f with
    | ok s =>
      have hrest := ih (i + 1) (fun x hx => hpre x (List.mem_cons_of_mem _ hx))
      simp only [List.cons_append, PPTXParser.parseSlidesGo, PPTXParser.parseSlide,
        List.append_eq]
      refine ⟨?_, ?_⟩
      · rw [hrest.1]
        have harith : i + 1 + rest.length + 1 = i + (Except.ok (ε := String) s :: rest).length + 1 := by
          simp only [List.length_cons]
          omega
        rw [harith]
      · simp only [List.length_cons]
        rw [hrest.2]
        omega
    | error m2 =>
      have := hpre (Except.error m2) (List.mem_cons_self _ _)
      simp [Except.isOk, Except.toBool] at this

/-- C1: for a deck whose presentation part parses and whose slide parts are
all valid except exactly one malformed part, the decode result has
success = true, one slide per valid part (the malformed one is skipped, not
replaced by a placeholder), and exactly one warning naming that slide's
number. -/
theorem parse_one_malformed_slide (pre post : List (Except String PPTXParser.Slide))
    (m : String) (hpre : ∀ x ∈ pre, x.isOk = true) (hpost : ∀ x ∈ post, x.isOk = true) :
    (PPTXParser.parse (Except.ok ()) (pre ++ Except.error m :: post)).success = true ∧
    (PPTXParser.parse (Except.ok ()) (pre ++ Except.error m :: post)).slides.length =
      (pre ++ Except.error m :: post).length - 1 ∧
    (PPTXParser.parse (Except.ok ()) (pre ++ Except.error m :: post)).warnings =
      [PPTXParser.slideWarning (pre.length + 1) m] := by
  have h := parseSlidesGo_oneBad post m hpost pre 0 hpre
  refine ⟨rfl, ?_, ?_⟩
  · show (PPTXParser.parseSlides (pre ++ Except.error m :: post)).1.length = _
    rw [PPTXParser.parseSlides, h.2]
    simp only [List.length_append, List.length_cons]
    omega
  · show (PPTXParser.parseSlides (pre ++ Except.error m :: post)).2 = _
    rw [PPTXParser.parseSlides, h.1]
    congr 2
    omega

/-- Witness for C1: a three-part deck whose second slide part is malformed
yields two slides and the single warning for slide 2. -/
theorem parse_one_malformed_slide_witness :
    (PPTXParser.parse (Except.ok ())
      [Except.ok ⟨"s1", "Slide 1", 1⟩, Except.error "bad xml",
       Except.ok ⟨"s3", "Slide 3", 3⟩]).success = true ∧
    (PPTXParser.parse (Except.ok ())
      [Except.ok ⟨"s1", "Slide 1", 1⟩, Except.error "bad xml",
       Except.ok ⟨"s3", "Slide 3", 3⟩]).slides.length = 2 ∧
    (PPTXParser.parse (Except.ok ())
      [Except.ok ⟨"s1", "Slide 1", 1⟩, Except.error "bad xml",
       Except.ok ⟨"s3", "Slide 3", 3⟩]).warnings =
      [PPTXParser.slideWarning 2 "bad xml"] := by
  have h := parse_one_malformed_slide [Except.ok ⟨"s1", "Slide 1", 1⟩]
    [Except.ok ⟨"s3", "Slide 3", 3⟩] "bad xml"
    (by intro x hx; simp at hx; rw [hx]; rfl)
    (by intro x hx; simp at hx; rw [hx]; rfl)
  simpa using h

/-! ### C2 — slide ordering -/

/-- C2 counterexample: when the ZIP directory enumerates slide2.xml before
slide1.xml, `PPTXParser.getSlideFiles` keeps that enumeration order, so the
slides are produced with numeric suffixes 2, 1 — not ascending.  (Only the
adapter's `PPTXAdapter.getSlideFiles` sorts.) -/
theorem slide_order_counterexample :
    SlideFiles.pptxGetSlideFiles ["ppt/slides/slide2.xml", "ppt/slides/slide1.xml"] =
      ["ppt/slides/slide2.xml", "ppt/slides/slide1.xml"] ∧
    (SlideFiles.pptxGetSlideFiles ["ppt/slides/slide2.xml", "ppt/slides/slide1.xml"]).map
      SlideFiles.slideNum = [2, 1] ∧
    ¬ List.Sorted (· ≤ ·) ([2, 1] : List ℕ) := by
  refine ⟨by decide, by decide, by decide⟩

/-- C2 amended: the adapter path (`PPTXAdapter.getSlideFiles`) sorts the
filtered slide files ascending by numeric suffix for every enumeration order,
and produces a permutation of the filtered enumeration; `PPTXParser`'s own
`getSlideFiles` only filters, preserving ZIP enumeration order (its output is
a sublist of the enumeration), so the slides of that path follow ZIP order. -/
theorem slide_files_ordering_amended (files : List String) :
    List.Sorted SlideFiles.slideLE (SlideFiles.adapterGetSlideFiles files) ∧
    (SlideFiles.adapterGetSlideFiles files).Perm (SlideFiles.pptxGetSlideFiles files) ∧
    (SlideFiles.pptxGetSlideFiles files).Sublist files := by
  refine ⟨List.sorted_insertionSort SlideFiles.slideLE _, ?_, List.filter_sublist _⟩
  exact List.perm_insertionSort SlideFiles.slideLE _

/-! ### C4 — theme fallback -/

/-- C4 counterexample: a theme part whose XML is valid and whose `a:theme`
root is present but whose color-scheme subtree is missing makes `parseTheme`
return a color scheme with an empty colors map — not the documented default
12-slot palette — and no warning at all. -/
theorem theme_fallback_counterexample :
    (ThemeParser.parseTheme 0
      (Except.ok (JSValue.vObj [("a:theme", JSValue.vObj [])])) 1).colorScheme.colors = [] ∧
    (ThemeParser.parseTheme 0
      (Except.ok (JSValue.vObj [("a:theme", JSValue.vObj [])])) 1).warnings = [] ∧
    ThemeParser.createDefaultColorScheme.colors.length = 12 ∧
    ([] : List (String × ThemeParser.ColorInfo)).length ≠ 12 := by
  refine ⟨rfl, rfl, rfl, by decide⟩

/-- When a key is not present-and-truthy, the `|| {}` fallback yields the
empty object. -/
theorem jsOr_empty_of_getTruthy_none (o : JSValue) (k : String)
    (h : getTruthy o k = none) :
    jsOr (XMLParser.getChild o k) (JSValue.vObj []) = JSValue.vObj [] := by
  cases hc : XMLParser.getChild o k with
  | none => simp [jsOr, hc]
  | some v =>
    cases ht : jsTruthy v with
    | false => simp [jsOr, hc, ht]
    | true =>
      exfalso
      simp [getTruthy, hc, ht] at h

/-- The colors map parsed from the empty object is empty. -/
theorem parseColorScheme_empty (now : ℤ) :
    (ThemeParser.parseColorScheme now (JSValue.vObj [])).colors = [] := rfl

/-- C4 amended: `parseTheme` never throws, but the fallbacks differ from the
claim — on malformed XML or a missing `a:theme` root it returns the default
12-slot palette with the failure recorded in `errors` (not `warnings`); on a
valid theme whose color-scheme subtree is merely missing it silently returns
an empty colors map (no default palette, no warning, no error). -/
theorem theme_fallback_amended (now : ℤ) (n : ℕ) (m : String) (v th : JSValue)
    (hroot : getTruthy v "a:theme" = none) (hth : jsTruthy th = true)
    (hclr : getTruthy (jsOr (XMLParser.getChild th "a:themeElements") (JSValue.vObj []))
      "a:clrScheme" = none) :
    ((ThemeParser.parseTheme now (Except.error m) n).colorScheme =
        ThemeParser.createDefaultColorScheme ∧
      (ThemeParser.parseTheme now (Except.error m) n).errors =
        ["Theme parsing error: " ++ ("Failed to parse XML: " ++ m)] ∧
      (ThemeParser.parseTheme now (Except.error m) n).warnings = []) ∧
    (jsTruthy v = true →
      (ThemeParser.parseTheme now (Except.ok v) n).colorScheme =
        ThemeParser.createDefaultColorScheme ∧
      (ThemeParser.parseTheme now (Except.ok v) n).errors =
        ["Theme parsing error: " ++ "Invalid theme XML structure"] ∧
      (ThemeParser.parseTheme now (Except.ok v) n).warnings = []) ∧
    ((ThemeParser.parseTheme now
        (Except.ok (JSValue.vObj [("a:theme", th)])) n).colorScheme.colors = [] ∧
      (ThemeParser.parseTheme now
        (Except.ok (JSValue.vObj [("a:theme", th)])) n).warnings = [] ∧
      (ThemeParser.parseTheme now
        (Except.ok (JSValue.vObj [("a:theme", th)])) n).errors = []) := by
  refine ⟨⟨rfl, rfl, rfl⟩, ?_, ?_⟩
  · intro hv
    simp only [ThemeParser.parseTheme, ThemeParser.xmlParse, hv, if_true, hroot]
    exact ⟨trivial, trivial, trivial⟩
  · have hlook : XMLParser.getChild (JSValue.vObj [("a:theme", th)]) "a:theme" = some th := by
      simp [XMLParser.getChild, List.lookup]
    have hroot2 : getTruthy (JSValue.vObj [("a:theme", th)]) "a:theme" = some th := by
      simp [getTruthy, hlook, hth]
    have hempty := jsOr_empty_of_getTruthy_none _ _ hclr
    have htr : jsTruthy (JSValue.vObj [("a:theme", th)]) = true := rfl
    simp only [ThemeParser.parseTheme, ThemeParser.xmlParse, htr, if_true, hroot2, hempty]
    refine ⟨?_, ?_, ?_⟩ <;> first | exact parseColorScheme_empty now | trivial

/-- Witness for C4's amended claim on an empty theme object. -/
theorem theme_fallback_amended_witness :
    (ThemeParser.parseTheme 0 (Except.error "bad") 1).colorScheme =
      ThemeParser.createDefaultColorScheme ∧
    (ThemeParser.parseTheme 0
      (Except.ok (JSValue.vObj [("a:theme", JSValue.vObj [])])) 1).warnings = [] := by
  have h := theme_fallback_amended 0 1 "bad" (JSValue.vObj []) (JSValue.vObj [])
    rfl rfl rfl
  exact ⟨h.1.1, h.2.2.2.1⟩

/-! ### C10 — theme cache bound -/

namespace ThemeCache

/-- Keys of the cache entry list, in insertion order. -/
def keys (l : List (String × CacheEntry)) : List String := l.map Prod.fst

/-- `Map.set` grows the entry list by at most one. -/
theorem mapSet_length_le (l : List (String × CacheEntry)) (k : String) (v : CacheEntry) :
    (mapSet l k v).length ≤ l.length + 1 := by
  induction l with
  | nil => simp [mapSet]
  | cons kv rest ih =>
    cases kv with
    | mk k' v' =>
      by_cases h : k' = k
      · simp [mapSet, h]
      · simp only [mapSet, if_neg h, List.length_cons]
        omega

/-- Every key after `Map.set` was already a key or is the inserted key. -/
theorem mem_keys_mapSet (l : List (String × CacheEntry)) (k : String) (v : CacheEntry)
    (x : String) (hx : x ∈ keys (mapSet l k v)) : x ∈ keys l ∨ x = k := by
  induction l with
  | nil =>
    simp [mapSet, keys] at hx
    exact Or.inr hx
  | cons kv rest ih =>
    cases kv with
    | mk k' v' =>
      by_cases h : k' = k
      · simp only [mapSet, if_pos h, keys, List.map_cons, List.mem_cons] at hx
        rcases hx with hx | hx
        · exact Or.inr hx
        · exact Or.inl (by simp [keys]; right; simpa [keys] using hx)
      · simp only [mapSet, if_neg h, keys, List.map_cons, List.mem_cons] at hx
        rcases hx with hx | hx
        · exact Or.inl (by simp [keys, hx])
        · rcases ih hx with h2 | h2
          · exact Or.inl (by simp [keys] at h2 ⊢; exact Or.inr h2)
          · exact Or.inr h2

/-- Deleting a present key removes exactly one entry. -/
theorem mapDelete_length (l : List (String × CacheEntry)) (k : String)
    (h : k ∈ keys l) : (mapDelete l k).length + 1 = l.length := by
  induction l with
  | nil => simp [keys] at h
  | cons kv rest ih =>
    cases kv with
    | mk k' v' =>
      by_cases hk : k' = k
      · simp [mapDelete, hk]
      · have hmem : k ∈ keys rest := by
          simp only [keys, List.map_cons, List.mem_cons] at h
          rcases h with h | h
          · exact absurd h.symm hk
          · exact h
        simp only [mapDelete, if_neg hk, List.length_cons]
        rw [← ih hmem]

/-- Deletion introduces no new keys. -/
theorem mem_keys_mapDelete (l : List (String × CacheEntry)) (k : String) (x : String)
    (hx : x ∈ keys (mapDelete l k)) : x ∈ keys l := by
  induction l with
  | nil => simpa [mapDelete] using hx
  | cons kv rest ih =>
    cases kv with
    | mk k' v' =>
      by_cases hk : k' = k
      · simp only [mapDelete, if_pos hk] at hx
        simp [keys, List.mem_cons]
        exact Or.inr (by simpa [keys] using hx)
      · simp only [mapDelete, if_neg hk, keys, List.map_cons, List.mem_cons] at hx
        rcases hx with hx | hx
        · simp [keys, hx]
        · simp only [keys, List.map_cons, List.mem_cons]
          exact Or.inr (ih hx)

/-- Deletion produces a sublist of the original entry list. -/
theorem mapDelete_sublist (l : List (String × CacheEntry)) (k : String) :
    (mapDelete l k).Sublist l := by
  induction l with
  | nil => simp [mapDelete]
  | cons kv rest ih =>
    cases kv with
    | mk k' v' =>
      by_cases hk : k' = k
      · simp only [mapDelete, if_pos hk]
        exact List.sublist_cons_of_sublist _ (List.Sublist.refl rest)
      · simp only [mapDelete, if_neg hk]
        exact List.Sublist.cons₂ _ ih

/-- The eviction scan only returns the accumulator's key or a key of the
list. -/
theorem findLeastUsedGo_mem (now : ℤ) :
    ∀ (l : List (String × CacheEntry)) (acc : Option (String × ℤ)) (k : String),
    findLeastUsedGo now l acc = some k → (∃ s, acc = some (k, s)) ∨ k ∈ keys l := by
  intro l
  induction l with
  | nil =>
    intro acc k h
    cases acc with
    | none => simp [findLeastUsedGo] at h
    | some p =>
      cases p with
      | mk k0 s0 =>
        simp only [findLeastUsedGo, Option.map] at h
        injection h with h
        exact Or.inl ⟨s0, by rw [h]⟩
  | cons kv rest ih =>
    intro acc k h
    cases kv with
    | mk k' e =>
      cases acc with
      | none =>
        have h' : findLeastUsedGo now rest (some (k', score now e)) = some k := by
          simpa [findLeastUsedGo] using h
        rcases ih (some (k', score now e)) k h' with ⟨s, hs⟩ | hmem
        · have : k' = k := by
            have := congrArg (Option.map Prod.fst) hs
            simpa using this
          exact Or.inr (by simp [keys, this])
        · exact Or.inr (by simp only [keys, List.map_cons, List.mem_cons]; exact Or.inr hmem)
      | some p =>
        cases p with
        | mk k0 m0 =>
          by_cases hlt : score now e < m0
          · have h' : findLeastUsedGo now rest (some (k', score now e)) = some k := by
              simpa [findLeastUsedGo, hlt] using h
            rcases ih (some (k', score now e)) k h' with ⟨s, hs⟩ | hmem
            · have : k' = k := by
                have := congrArg (Option.map Prod.fst) hs
                simpa using this
              exact Or.inr (by simp [keys, this])
            · exact Or.inr
                (by simp only [keys, List.map_cons, List.mem_cons]; exact Or.inr hmem)
          · have h' : findLeastUsedGo now rest (some (k0, m0)) = some k := by
              simpa [findLeastUsedGo, hlt] using h
            rcases ih (some (k0, m0)) k h' with ⟨s, hs⟩ | hmem
            · exact Or.inl ⟨m0, by
                have : k0 = k := by
                  have := congrArg (Option.map Prod.fst) hs
                  simpa using this
                rw [this]⟩
            · exact Or.inr
                (by simp only [keys, List.map_cons, List.mem_cons]; exact Or.inr hmem)

/-- With a seeded accumulator the eviction scan always returns a key. -/
theorem findLeastUsedGo_isSome (now : ℤ) :
    ∀ (l : List (String × CacheEntry)) (p : String × ℤ),
    (findLeastUsedGo now l (some p)).isSome = true := by
  intro l
  induction l with
  | nil => intro p; rfl
  | cons kv rest ih =>
    intro p
    cases kv with
    | mk k' e =>
      cases p with
      | mk k0 m0 =>
        by_cases hlt : score now e < m0
        · simpa [findLeastUsedGo, hlt] using ih (k', score now e)
        · simpa [findLeastUsedGo, hlt] using ih (k0, m0)

/-- On a nonempty cache the eviction scan chooses some key. -/
theorem findLeastUsed_isSome (now : ℤ) (l : List (String × CacheEntry))
    (h : l ≠ []) : (findLeastUsed now l).isSome = true := by
  cases l with
  | nil => exact absurd rfl h
  | cons kv rest =>
    cases kv with
    | mk k' e =>
      simpa [findLeastUsed, findLeastUsedGo] using findLeastUsedGo_isSome now rest (k', score now e)

/-- The invariant maintained by well-formed operation sequences: the empty
string is never a key and the entry count respects the bound. -/
def CacheInv (st : CacheState) : Prop :=
  "" ∉ keys st.entries ∧ st.entries.length ≤ st.maxSize

/-- An operation is well formed when it never inserts the empty string as a
theme id (the id is truthy, as every real theme id `theme-N` is). -/
def goodOp : CacheOp → Prop
  | CacheOp.set _ themeId => themeId ≠ ""
  | _ => True

end ThemeCache

namespace ThemeCache

/-- Eviction never changes the configured bound. -/
theorem evictLeastUsed_maxSize (now : ℤ) (st : CacheState) :
    (evictLeastUsed now st).maxSize = st.maxSize := by
  unfold evictLeastUsed
  cases findLeastUsed now st.entries with
  | none => rfl
  | some k => by_cases hk : k = "" <;> simp [hk]

/-- No operation changes the configured bound. -/
theorem runOp_maxSize (st : CacheState) (op : CacheOp) :
    (runOp st op).maxSize = st.maxSize := by
  cases op with
  | set now themeId =>
    simp only [runOp, cacheSet]
    by_cases hcap : st.maxSize ≤ st.entries.length
    · simp [hcap, evictLeastUsed_maxSize]
    · simp [hcap]
  | get now themeId => rfl
  | del themeId => rfl
  | clear => rfl

/-- No operation sequence changes the configured bound. -/
theorem foldl_runOp_maxSize : ∀ (l : List CacheOp) (st : CacheState),
    (l.foldl runOp st).maxSize = st.maxSize
  | [], _ => rfl
  | op :: rest, st => by
    simp only [List.foldl_cons]
    rw [foldl_runOp_maxSize rest (runOp st op), runOp_maxSize]

/-- One well-formed operation preserves the cache invariant. -/
theorem runOp_preserves_inv (st : CacheState) (op : CacheOp)
    (hmax : 1 ≤ st.maxSize) (hinv : CacheInv st) (hop : goodOp op) :
    CacheInv (runOp st op) := by
  obtain ⟨hkeys, hlen⟩ := hinv
  cases op with
  | set now themeId =>
    have hid : themeId ≠ "" := hop
    by_cases hcap : st.maxSize ≤ st.entries.length
    · -- at capacity: evict first, then insert
      have hne : st.entries ≠ [] := by
        intro he
        rw [he] at hcap
        simp at hcap
        omega
      obtain ⟨k, hk⟩ := Option.isSome_iff_exists.mp (findLeastUsed_isSome now st.entries hne)
      have hkmem : k ∈ keys st.entries := by
        rcases findLeastUsedGo_mem now st.entries none k hk with ⟨s, hs⟩ | hm
        · exact absurd hs (by simp)
        · exact hm
      have hkne : k ≠ "" := fun he => hkeys (he ▸ hkmem)
      have hev : evictLeastUsed now st =
          { st with entries := mapDelete st.entries k } := by
        unfold evictLeastUsed
        rw [show findLeastUsed now st.entries = some k from hk]
        simp [hkne]
      constructor
      · intro hmem
        have : "" ∈ keys (mapSet (mapDelete st.entries k) themeId ⟨now, 0⟩) := by
          simpa [runOp, cacheSet, if_pos hcap, hev] using hmem
        rcases mem_keys_mapSet _ _ _ _ this with hm | hm
        · exact hkeys (mem_keys_mapDelete _ _ _ hm)
        · exact hid hm.symm
      · have hdel : (mapDelete st.entries k).length + 1 = st.entries.length :=
          mapDelete_length st.entries k hkmem
        have hset := mapSet_length_le (mapDelete st.entries k) themeId ⟨now, 0⟩
        simp only [runOp, cacheSet, if_pos hcap, hev]
        omega
    · constructor
      · intro hmem
        have : "" ∈ keys (mapSet st.entries themeId ⟨now, 0⟩) := by
          simpa [runOp, cacheSet, if_neg hcap] using hmem
        rcases mem_keys_mapSet _ _ _ _ this with hm | hm
        · exact hkeys hm
        · exact hid hm.symm
      · have hset := mapSet_length_le st.entries themeId ⟨now, 0⟩
        simp only [runOp, cacheSet, if_neg hcap]
        omega
  | get now themeId =>
    constructor
    · intro hmem
      apply hkeys
      simp only [runOp, cacheGet, keys, List.map_map] at hmem ⊢
      convert hmem using 2
      funext kv
      by_cases h : kv.1 = themeId <;> simp [h]
    · simpa [runOp, cacheGet] using hlen
  | del themeId =>
    constructor
    · intro hmem
      exact hkeys (mem_keys_mapDelete _ _ _ (by simpa [runOp, cacheDelete] using hmem))
    · have h := (mapDelete_sublist st.entries themeId).length_le
      simpa [runOp, cacheDelete] using le_trans h hlen
  | clear =>
    exact ⟨by simp [runOp, cacheClear, keys], by simp [runOp, cacheClear]⟩

/-- The invariant holds after any well-formed sequence. -/
theorem runOps_inv (maxSize : ℕ) (hmax : 1 ≤ maxSize) (ops : List CacheOp)
    (hops : ∀ op ∈ ops, goodOp op) :
    CacheInv (runOps maxSize ops) := by
  have hstart : CacheInv { entries := [], maxSize := maxSize } := by
    constructor
    · simp [keys]
    · simp
  suffices h : ∀ (l : List CacheOp) (st : CacheState), st.maxSize = maxSize →
      CacheInv st → (∀ op ∈ l, goodOp op) → CacheInv (l.foldl runOp st) by
    exact h ops { entries := [], maxSize := maxSize } rfl hstart hops
  intro l
  induction l with
  | nil => intro st _ hinv _; exact hinv
  | cons op rest ih =>
    intro st hsz hinv hl
    have h1 : goodOp op := hl op (List.mem_cons_self _ _)
    have h2 := runOp_preserves_inv st op (by omega) hinv h1
    exact ih (runOp st op) (by rw [runOp_maxSize, hsz]) h2
      (fun o ho => hl o (List.mem_cons_of_mem _ ho))

end ThemeCache

/-- C10 counterexample: the eviction scan's result is delete-guarded by JS
truthiness (`if (leastUsed)`), so when the least-used key is the empty string
nothing is evicted and a subsequent `set` pushes the cache to maxSize + 1
entries; a cache constructed with maxSize = 0 similarly exceeds its bound on
the very first `set`. -/
theorem cache_bound_counterexample :
    (ThemeCache.runOps 1
      [ThemeCache.CacheOp.set 0 "", ThemeCache.CacheOp.set 1 "x"]).entries.length = 2 ∧
    ¬ (ThemeCache.runOps 1
      [ThemeCache.CacheOp.set 0 "", ThemeCache.CacheOp.set 1 "x"]).entries.length ≤ 1 ∧
    (ThemeCache.runOps 0 [ThemeCache.CacheOp.set 0 "a"]).entries.length = 1 ∧
    ¬ (ThemeCache.runOps 0 [ThemeCache.CacheOp.set 0 "a"]).entries.length ≤ 0 := by
  refine ⟨?_, ?_, ?_, ?_⟩ <;> decide

/-- C10 amended: for every maxSize of at least 1 and every sequence of
set/get/delete/clear operations starting from the empty cache in which no
`set` uses the empty string as theme id, the entry count stays at most
maxSize after every operation — at capacity, `set` first evicts the
least-used entry. -/
theorem cache_bound_amended (maxSize : ℕ) (ops : List ThemeCache.CacheOp)
    (hmax : 1 ≤ maxSize) (hops : ∀ op ∈ ops, ThemeCache.goodOp op) :
    (ThemeCache.runOps maxSize ops).entries.length ≤ maxSize := by
  have h := ThemeCache.runOps_inv maxSize hmax ops hops
  have hsz : (ThemeCache.runOps maxSize ops).maxSize = maxSize :=
    ThemeCache.foldl_runOp_maxSize ops { entries := [], maxSize := maxSize }
  have := h.2
  omega

/-- Witness for C10 at maxSize = 1 with three inserts of distinct nonempty
ids. -/
theorem cache_bound_amended_witness :
    (ThemeCache.runOps 1
      [ThemeCache.CacheOp.set 0 "a", ThemeCache.CacheOp.set 1 "b",
       ThemeCache.CacheOp.set 2 "c"]).entries.length ≤ 1 :=
  cache_bound_amended 1
    [ThemeCache.CacheOp.set 0 "a", ThemeCache.CacheOp.set 1 "b",
     ThemeCache.CacheOp.set 2 "c"]
    (by norm_num)
    (by
      intro op hop
      simp only [List.mem_cons, List.not_mem_nil, or_false] at hop
      rcases hop with h | h | h <;> · rw [h]; simp [ThemeCache.goodOp])
